import Mathlib

/-!
Verification of the flux-k serverless handler (`src/handler.py`).

The development shallowly embeds the handler's job-orchestration pipeline:
JSON documents are modelled by an inductive `Json` type, the external
collaborators (network fetches, the PIL codec, the ComfyUI server, the
websocket event stream, object-store upload) are modelled by an explicit
environment of oracle functions, and each Python function of the source is
transcribed as a Lean function over those.  Python exceptions are modelled
with `Except`/outcome types; an exception that the Python code does not
catch surfaces as a `raised` outcome of the handler.
-/

namespace FluxK

/-- JSON values, as produced by `json.loads` / passed in a job document.
Objects keep their field order (Python dicts preserve insertion order).
JSON numbers are modelled as integers: every number appearing in the
handler's control flow (`image_quality`, ids) is integral. -/
inductive Json where
  | null : Json
  | bool (b : Bool) : Json
  | num (n : Int) : Json
  | str (s : String) : Json
  | arr (elems : List Json) : Json
  | obj (fields : List (String × Json)) : Json
deriving Repr

mutual

/-- Structural boolean equality on `Json` (basis for `DecidableEq`;
the derive handler does not support this nested inductive). -/
def Json.beq : Json → Json → Bool
  | .null, .null => true
  | .bool a, .bool b => a = b
  | .num a, .num b => a = b
  | .str a, .str b => a = b
  | .arr as, .arr bs => beqArr as bs
  | .obj fs, .obj gs => beqObj fs gs
  | _, _ => false

def beqArr : List Json → List Json → Bool
  | [], [] => true
  | a :: as, b :: bs => Json.beq a b && beqArr as bs
  | _, _ => false

def beqObj : List (String × Json) → List (String × Json) → Bool
  | [], [] => true
  | (k, v) :: fs, (k2, v2) :: gs => k = k2 && Json.beq v v2 && beqObj fs gs
  | _, _ => false

end

mutual

theorem Json.beq_refl : ∀ a : Json, a.beq a = true
  | .null => rfl
  | .bool _ => by simp [Json.beq]
  | .num _ => by simp [Json.beq]
  | .str _ => by simp [Json.beq]
  | .arr as => by simp [Json.beq, beqArr_refl as]
  | .obj fs => by simp [Json.beq, beqObj_refl fs]

theorem beqArr_refl : ∀ as : List Json, beqArr as as = true
  | [] => rfl
  | a :: as => by simp [beqArr, Json.beq_refl a, beqArr_refl as]

theorem beqObj_refl : ∀ fs : List (String × Json), beqObj fs fs = true
  | [] => rfl
  | (_, v) :: fs => by simp [beqObj, Json.beq_refl v, beqObj_refl fs]

end

mutual

theorem Json.eq_of_beq : ∀ (a b : Json), a.beq b = true → a = b
  | .null, .null, _ => rfl
  | .bool _, .bool _, h => by simp [Json.beq] at h; simp [h]
  | .num _, .num _, h => by simp [Json.beq] at h; simp [h]
  | .str _, .str _, h => by simp [Json.beq] at h; simp [h]
  | .arr as, .arr bs, h => by
      rw [eqArr_of_beq as bs (by simpa [Json.beq] using h)]
  | .obj fs, .obj gs, h => by
      rw [eqObj_of_beq fs gs (by simpa [Json.beq] using h)]
  | .null, .bool _, h => nomatch h
  | .null, .num _, h => nomatch h
  | .null, .str _, h => nomatch h
  | .null, .arr _, h => nomatch h
  | .null, .obj _, h => nomatch h
  | .bool _, .null, h => nomatch h
  | .bool _, .num _, h => nomatch h
  | .bool _, .str _, h => nomatch h
  | .bool _, .arr _, h => nomatch h
  | .bool _, .obj _, h => nomatch h
  | .num _, .null, h => nomatch h
  | .num _, .bool _, h => nomatch h
  | .num _, .str _, h => nomatch h
  | .num _, .arr _, h => nomatch h
  | .num _, .obj _, h => nomatch h
  | .str _, .null, h => nomatch h
  | .str _, .bool _, h => nomatch h
  | .str _, .num _, h => nomatch h
  | .str _, .arr _, h => nomatch h
  | .str _, .obj _, h => nomatch h
  | .arr _, .null, h => nomatch h
  | .arr _, .bool _, h => nomatch h
  | .arr _, .num _, h => nomatch h
  | .arr _, .str _, h => nomatch h
  | .arr _, .obj _, h => nomatch h
  | .obj _, .null, h => nomatch h
  | .obj _, .bool _, h => nomatch h
  | .obj _, .num _, h => nomatch h
  | .obj _, .str _, h => nomatch h
  | .obj _, .arr _, h => nomatch h

theorem eqArr_of_beq : ∀ (as bs : List Json), beqArr as bs = true → as = bs
  | [], [], _ => rfl
  | a :: as, b :: bs, h => by
      simp only [beqArr, Bool.and_eq_true] at h
      rw [Json.eq_of_beq a b h.1, eqArr_of_beq as bs h.2]
  | [], _ :: _, h => nomatch h
  | _ :: _, [], h => nomatch h

theorem eqObj_of_beq :
    ∀ (fs gs : List (String × Json)), beqObj fs gs = true → fs = gs
  | [], [], _ => rfl
  | (k, v) :: fs, (k2, v2) :: gs, h => by
      simp only [beqObj, Bool.and_eq_true, decide_eq_true_eq] at h
      rw [h.1.1, Json.eq_of_beq v v2 h.1.2, eqObj_of_beq fs gs h.2]
  | [], _ :: _, h => nomatch h
  | _ :: _, [], h => nomatch h

end

instance : DecidableEq Json := fun a b =>
  if h : Json.beq a b = true then isTrue (Json.eq_of_beq a b h)
  else isFalse (fun e => h (e ▸ Json.beq_refl a))

instance {ε α : Type} [DecidableEq ε] [DecidableEq α] :
    DecidableEq (Except ε α) := fun x y =>
  match x, y with
  | .ok a, .ok b =>
    if h : a = b then isTrue (by rw [h])
    else isFalse (fun e => h (Except.ok.inj e))
  | .error a, .error b =>
    if h : a = b then isTrue (by rw [h])
    else isFalse (fun e => h (Except.error.inj e))
  | .ok _, .error _ => isFalse (fun e => Except.noConfusion e)
  | .error _, .ok _ => isFalse (fun e => Except.noConfusion e)

/-- First-match association lookup: Python `d[k]` / `d.get(k)` on a dict
whose insertion order is the list order (parsed JSON has unique keys). -/
def lookupField : List (String × Json) → String → Option Json
  | [], _ => none
  | (k, v) :: rest, key => if k = key then some v else lookupField rest key

/-- Python `d[k] = v` on a dict: replace the value of an existing key in
place, otherwise append the new key at the end (insertion order). -/
def setField : List (String × Json) → String → Json → List (String × Json)
  | [], key, v => [(key, v)]
  | (k, w) :: rest, key, v =>
      if k = key then (k, v) :: rest else (k, w) :: setField rest key v

/-- Python truthiness of a JSON value: `None`, `False`, `0`, `""`, `[]`
and `{}` are falsy, everything else truthy. -/
def Json.truthy : Json → Bool
  | .null => false
  | .bool b => b
  | .num n => n ≠ 0
  | .str s => s ≠ ""
  | .arr l => !l.isEmpty
  | .obj f => !f.isEmpty

/-- Truthiness of `d.get(k)`: an absent key yields `None`, which is falsy. -/
def optTruthy : Option Json → Bool
  | none => false
  | some v => v.truthy

mutual

/-- Python `==` on JSON values.  Scalars compare by value with the
`True == 1` / `False == 0` numeric identification; lists compare
pointwise.  Dicts in Python compare as unordered maps; parsed JSON
objects have unique keys and every comparison the handler performs is
on server-issued string ids, where the field-order-sensitive comparison
below is indistinguishable from Python's. -/
def Json.pyEq : Json → Json → Bool
  | .null, .null => true
  | .bool a, .bool b => a = b
  | .num a, .num b => a = b
  | .bool a, .num b => (if a then (1 : Int) else 0) = b
  | .num a, .bool b => a = (if b then (1 : Int) else 0)
  | .str a, .str b => a = b
  | .arr as, .arr bs => pyEqArr as bs
  | .obj fs, .obj gs => pyEqObj fs gs
  | _, _ => false

def pyEqArr : List Json → List Json → Bool
  | [], [] => true
  | a :: as, b :: bs => Json.pyEq a b && pyEqArr as bs
  | _, _ => false

def pyEqObj : List (String × Json) → List (String × Json) → Bool
  | [], [] => true
  | (k, v) :: fs, (k2, v2) :: gs => k = k2 && Json.pyEq v v2 && pyEqObj fs gs
  | _, _ => false

end

/-! ## Strict base64 decoding (`base64.b64decode(s, validate=True)`)

`b64decode` with `validate=True` first requires the whole string to match
`[A-Za-z0-9+/]*={0,2}` (raising `binascii.Error` otherwise) and then
decodes with `binascii.a2b_base64`, which raises on incorrect padding
(length not a multiple of 4).  Non-ASCII input raises `ValueError`
before that; such characters are outside the alphabet, so the single
`none` result below covers every failure the Python call can raise
(`binascii.Error` and `ValueError`, exactly the types the source
catches). -/

/-- The standard base64 alphabet value of a character. -/
def b64charVal (c : Char) : Option Nat :=
  if 'A' ≤ c ∧ c ≤ 'Z' then some (c.toNat - 'A'.toNat)
  else if 'a' ≤ c ∧ c ≤ 'z' then some (c.toNat - 'a'.toNat + 26)
  else if '0' ≤ c ∧ c ≤ '9' then some (c.toNat - '0'.toNat + 52)
  else if c = '+' then some 62
  else if c = '/' then some 63
  else none

/-- `[A-Za-z0-9+/]*={0,2}` : a prefix of alphabet characters followed by
at most two padding characters. -/
def b64validShape (cs : List Char) : Bool :=
  let body := cs.takeWhile (fun c => (b64charVal c).isSome)
  let tail := cs.drop body.length
  tail.all (· = '=') && tail.length ≤ 2

/-- Decode successive 4-character groups; `=` padding may only occur at
the tail of the final group (guaranteed by `b64validShape`).  Leftover
bits of a padded final group are dropped, as `binascii.a2b_base64` does
outside strict mode. -/
def b64quads : List Char → Option (List Nat)
  | [] => some []
  | a :: b :: c :: d :: rest => do
      let va ← b64charVal a
      let vb ← b64charVal b
      if d = '=' then
        if rest ≠ [] then none
        else if c = '=' then
          some [va * 4 + vb / 16]
        else do
          let vc ← b64charVal c
          some [va * 4 + vb / 16, (vb % 16) * 16 + vc / 4]
      else do
        let vc ← b64charVal c
        let vd ← b64charVal d
        let tl ← b64quads rest
        some ((va * 4 + vb / 16) :: ((vb % 16) * 16 + vc / 4) :: ((vc % 4) * 64 + vd) :: tl)
  | _ => none

/-- `base64.b64decode(s, validate=True)`: `none` models the raised
`binascii.Error` / `ValueError` on malformed input. -/
def b64decodeValidate (s : String) : Option (List Nat) :=
  if b64validShape s.data ∧ s.length % 4 = 0 then b64quads s.data else none

/-- `s.split(",", 1)[1]` applied only when a comma occurs: the text after
the first comma, the whole string otherwise (handler.py lines 102-103). -/
def stripDataUri (s : String) : String :=
  if s.data.contains ',' then
    String.mk ((s.data.dropWhile (· ≠ ',')).drop 1)
  else s

/-! ## The websocket event stream and the completion-wait loop
(`get_images`, handler.py lines 162-168) -/

/-- A frame received by `ws.recv()`: a binary payload, a textual frame
whose `json.loads` result is `parsed`, or a textual frame that is not
valid JSON (on which `json.loads` raises). -/
inductive WsFrame where
  | binary (data : List Nat) : WsFrame
  | text (parsed : Json) : WsFrame
  | textBad (raw : String) : WsFrame
deriving DecidableEq, Repr

/-- Effect of one iteration of the `while True` receive loop on one
frame: `brk` leaves the loop, `cont` consumes the frame and keeps
waiting, `err` models an uncaught exception (`json.loads` failure,
`KeyError` on a missing field, `TypeError` on indexing a non-dict). -/
inductive StepRes where
  | brk : StepRes
  | cont : StepRes
  | err : StepRes
deriving DecidableEq, Repr

/-- One iteration of the receive loop (handler.py lines 163-168).
Binary frames fail the `isinstance(msg, str)` test and are skipped.
A textual frame is parsed; `data["type"] == "executing"` guards the
inner test; `data["data"]["node"] is None` short-circuits `and`, so
`prompt_id` is only looked up when `node` is `None`. -/
def loopStep (prompt_id : Json) : WsFrame → StepRes
  | .binary _ => .cont
  | .textBad _ => .err
  | .text data =>
    match data with
    | .obj fields =>
      match lookupField fields "type" with
      | none => .err
      | some t =>
        if t.pyEq (.str "executing") then
          match lookupField fields "data" with
          | none => .err
          | some d =>
            match d with
            | .obj df =>
              match lookupField df "node" with
              | none => .err
              | some node =>
                if node = .null then
                  match lookupField df "prompt_id" with
                  | none => .err
                  | some pid => if pid.pyEq prompt_id then .brk else .cont
                else .cont
            | _ => .err
        else .cont
    | _ => .err

/-- Result of running the receive loop against a stream of frames:
`complete i` means the loop broke on the frame at index `i`, `exn`
models an uncaught exception inside the loop, and `pending` models the
loop still blocked in `ws.recv()` after the whole stream (the source
has no timeout, so an exhausted stream is an indefinite block). -/
inductive WaitOutcome where
  | complete (idx : Nat) : WaitOutcome
  | exn : WaitOutcome
  | pending : WaitOutcome
deriving DecidableEq, Repr

/-- The `while True` receive loop of `get_images` over a frame stream. -/
def waitLoop (prompt_id : Json) : List WsFrame → WaitOutcome
  | [] => .pending
  | f :: fs =>
    match loopStep prompt_id f with
    | .brk => .complete 0
    | .err => .exn
    | .cont =>
      match waitLoop prompt_id fs with
      | .complete n => .complete (n + 1)
      | r => r

/-! ## The PIL image model and the external-collaborator environment -/

/-- A decoded PIL image: color `mode`, pixel dimensions, and an
abstract token standing for the pixel data. -/
structure PILImage where
  mode : String
  width : Nat
  height : Nat
  content : Nat
deriving DecidableEq, Repr

/-- Oracles for every external collaborator the handler touches.  The
pipeline is deterministic given these: the bundled default workflow
(`none` = the file is missing or unparseable), the HTTP fetch for
`image_url` (`none` = the request raised), the PIL codec (decode
failure, pixel data of `convert`/`resize`, JPEG encoding at a quality),
ComfyUI liveness per poll attempt, the `POST /prompt` response body,
the websocket frame stream, the `GET /history` response body, the
`GET /view` image bytes, and the object-store upload URL. -/
structure Env where
  defaultWorkflow : Option Json
  fetch : String → Option (List Nat)
  decode : List Nat → Option PILImage
  convertContent : PILImage → Nat
  resizeContent : PILImage → Nat × Nat → Nat
  encodeJPEG : PILImage → Int → List Nat
  comfyUp : Nat → Bool
  queueResponse : Json
  frames : List WsFrame
  historyDoc : Json
  view : String → String → String → List Nat
  upload : List Nat → String

/-- `img.convert("RGB")`: same dimensions, mode forced to RGB, pixel
data given by the codec oracle. -/
def convertRGB (env : Env) (img : PILImage) : PILImage :=
  { mode := "RGB", width := img.width, height := img.height,
    content := env.convertContent img }

/-- `if img.mode != "RGB": img = img.convert("RGB")` (lines 120-121 and
191-192). -/
def convertIfNeeded (env : Env) (img : PILImage) : PILImage :=
  if img.mode ≠ "RGB" then convertRGB env img else img

/-- Python `str()` of a JSON value, as `urllib.parse.urlencode` applies
it to query parameters.  Exact for scalars; the container cases are
placeholders (the handler only ever passes server-issued strings). -/
def pyStr : Json → String
  | .null => "None"
  | .bool b => if b then "True" else "False"
  | .num n => toString n
  | .str s => s
  | .arr _ => "<list>"
  | .obj _ => "<dict>"

/-! ## The source functions (handler.py) -/

/-- `wait_for_comfyui` (lines 64-73): 180 one-second-spaced probe
attempts; any attempt answering makes the function return, exhausting
the budget raises `RuntimeError("ComfyUI is not reachable.")`. -/
def wait_for_comfyui (env : Env) : Except String Unit :=
  if (List.range 180).any env.comfyUp then .ok ()
  else .error "ComfyUI is not reachable."

/-- `load_workflow` (lines 77-87): a truthy client workflow is returned
verbatim (no copy, no parse); otherwise the bundled default is loaded,
and any failure there raises
`RuntimeError("Failed to load default workflow.json.")`. -/
def load_workflow (env : Env) (client_workflow : Option Json) : Except String Json :=
  if optTruthy client_workflow then .ok (client_workflow.getD .null)
  else
    match env.defaultWorkflow with
    | some w => .ok w
    | none => .error "Failed to load default workflow.json."

/-- `load_image_bytes` (lines 91-108).  The `image_url` branch is tested
first; any exception inside it (including `urlopen` on a non-string) is
caught and re-raised as the download error.  The `image_base64` branch
strips a data-URI prefix, then decodes with `validate=True`; the caught
types `binascii.Error` and `ValueError` cover every failure of
`b64decode` on a string, so each maps to `Invalid 'image_base64'.`;
`b64decode` on a truthy non-string raises an uncaught `TypeError`. -/
def load_image_bytes (fetch : String → Option (List Nat))
    (image_url : Option Json) (image_base64 : Option Json) :
    Except String (List Nat) :=
  if optTruthy image_url then
    match image_url with
    | some (.str u) =>
      match fetch u with
      | some bs => .ok bs
      | none => .error "Failed to download image from 'image_url'."
    | _ => .error "Failed to download image from 'image_url'."
  else if optTruthy image_base64 then
    match image_base64 with
    | some (.str s) =>
      match b64decodeValidate (stripDataUri s) with
      | some bs => .ok bs
      | none => .error "Invalid 'image_base64'."
    | _ => .error "TypeError: b64decode argument"
  else .error "No image source provided."

/-- `save_image_bytes_as_jpeg` (lines 110-124): decode (failure raises
`RuntimeError("Invalid image file.")`), convert non-RGB modes, save to
the fixed input path (the JPEG write itself is off-model), and return
the path together with the image size. -/
def save_image_bytes_as_jpeg (env : Env) (raw_bytes : List Nat) :
    Except String (String × (Nat × Nat)) :=
  match env.decode raw_bytes with
  | none => .error "Invalid image file."
  | some img0 =>
    let img := convertIfNeeded env img0
    .ok ("/workspace/ComfyUI/input/input_image.jpg", (img.width, img.height))

/-- `queue_prompt` (lines 128-140): the parsed response body of
`POST /prompt`. -/
def queue_prompt (env : Env) (_prompt : Json) : Json :=
  env.queueResponse

/-- `get_history` (lines 142-145): the parsed response body of
`GET /history/{prompt_id}`. -/
def get_history (env : Env) (_prompt_id : String) : Json :=
  env.historyDoc

/-- `get_image` (lines 147-156): `GET /view` with the three query
parameters rendered by `urlencode`. -/
def get_image (env : Env) (filename subfolder folder_type : Json) : List Nat :=
  env.view (pyStr filename) (pyStr subfolder) (pyStr folder_type)

/-- The inner loop of the extraction phase (lines 175-177): fetch every
descriptor of one node's `images` list, in order. -/
def fetchEach (env : Env) : List Json → Except String (List (List Nat))
  | [] => .ok []
  | img :: rest =>
    match img with
    | .obj imf =>
      match lookupField imf "filename", lookupField imf "subfolder",
            lookupField imf "type" with
      | some f, some sf, some ty => do
          let tl ← fetchEach env rest
          .ok (get_image env f sf ty :: tl)
      | _, _, _ => .error "KeyError: image descriptor field"
    | _ => .error "TypeError: image descriptor"

/-- The outer loop of the extraction phase (lines 173-177): walk
`history["outputs"].values()` in the document's own key order and
collect the fetched bytes of every node that passes
`"images" in node_output`.  The non-dict cases replay Python's `in` /
indexing semantics: `in` on a list is membership, on a string a
substring test, and indexing the `images` of such a node (or iterating
a non-iterable) raises. -/
def collectImages (env : Env) : List (String × Json) → Except String (List (List Nat))
  | [] => .ok []
  | (_, node_output) :: rest =>
    match node_output with
    | .obj nf =>
      match lookupField nf "images" with
      | some (.arr imgs) => do
          let here ← fetchEach env imgs
          let tl ← collectImages env rest
          .ok (here ++ tl)
      | some _ => .error "TypeError: images value is not a list"
      | none => collectImages env rest
    | .arr l =>
      if l.any (fun v => v.pyEq (.str "images")) then
        .error "TypeError: list indices must be integers"
      else collectImages env rest
    | .str s =>
      if s.data.length + 1 > 0 ∧
          ((List.range (s.data.length + 1)).any
            fun i => "images".data.isPrefixOf (s.data.drop i)) then
        .error "TypeError: string indices must be integers"
      else collectImages env rest
    | _ => .error "TypeError: argument is not iterable"

/-- Result of `get_images`: the collected image bytes, an uncaught
exception, or an indefinite block in the receive loop. -/
inductive GetImagesRes where
  | ok (images : List (List Nat)) : GetImagesRes
  | raised (msg : String) : GetImagesRes
  | hangs : GetImagesRes
deriving DecidableEq, Repr

/-- `get_images` (lines 158-179): queue the prompt and read
`prompt_id` from the response, run the receive loop to completion,
fetch the history document, index it by `prompt_id`, and walk its
`outputs`. -/
def get_images (env : Env) (workflow : Json) : GetImagesRes :=
  match queue_prompt env workflow with
  | .obj qf =>
    match lookupField qf "prompt_id" with
    | none => .raised "KeyError: prompt_id"
    | some prompt_id =>
      match waitLoop prompt_id env.frames with
      | .exn => .raised "uncaught exception in the receive loop"
      | .pending => .hangs
      | .complete _ =>
        match prompt_id with
        | .str pid =>
          match get_history env pid with
          | .obj hf =>
            match lookupField hf pid with
            | none => .raised "KeyError: history entry"
            | some history =>
              match history with
              | .obj hist =>
                match lookupField hist "outputs" with
                | none => .raised "KeyError: outputs"
                | some (.obj outs) =>
                  match collectImages env outs with
                  | .ok imgs => .ok imgs
                  | .error m => .raised m
                | some _ => .raised "AttributeError: no attribute values"
              | _ => .raised "TypeError: history entry is not a dict"
          | _ => .raised "TypeError: history document is not a dict"
        | _ => .raised "KeyError: history entry"
  | _ => .raised "TypeError: queue response is not a dict"

/-- The image produced by `process_output_image` just before the JPEG
encode (lines 189-195): decode, convert non-RGB modes, and resize to
`target_size` exactly when `original_size` is truthy and the decoded
size differs.  `none` models the decode raising. -/
def processedImg (env : Env) (raw_bytes : List Nat) (target_size : Nat × Nat)
    (original_size : Json) : Option PILImage :=
  match env.decode raw_bytes with
  | none => none
  | some img0 =>
    let img := convertIfNeeded env img0
    if original_size.truthy = true ∧ (img.width, img.height) ≠ target_size then
      some { mode := img.mode, width := target_size.1, height := target_size.2,
             content := env.resizeContent img target_size }
    else some img

/-- `process_output_image` (lines 183-205): the pre-encode image of
`processedImg`, JPEG-encoded at the requested quality (subsampling 0,
optimize — both fixed at the call site and folded into the oracle). -/
def process_output_image (env : Env) (raw_bytes : List Nat)
    (target_size : Nat × Nat) (original_size : Json) (quality : Int) :
    Except String (List Nat) :=
  match processedImg env raw_bytes target_size original_size with
  | none => .error "UnidentifiedImageError"
  | some img => .ok (env.encodeJPEG img quality)

/-- Python `int(x)` on a JSON value: exact on numbers and booleans,
string parsing via `toInt?` (Python additionally strips whitespace),
`none` models the raised `TypeError`/`ValueError`. -/
def pyIntOfJson : Json → Option Int
  | .num n => some n
  | .bool b => some (if b then 1 else 0)
  | .str s => s.trim.toInt?
  | _ => none

/-- The quality clamp of handler.py line 219:
`max(0, min(100, image_quality))`. -/
def clampQuality (q : Int) : Int := max 0 (min 100 q)

/-- The workflow patch of handler.py line 228,
`workflow["1"]["inputs"]["image"] = image_path`, rendered as a value
update (the in-place/aliasing reading of the same line is modelled in
the `Ref` namespace below).  Missing keys raise `KeyError`, indexing a
non-dict raises `TypeError`; the final `["image"] = ...` assignment on
a dict always succeeds. -/
def setImagePath (workflow : Json) (image_path : String) : Except String Json :=
  match workflow with
  | .obj wf =>
    match lookupField wf "1" with
    | none => .error "KeyError: workflow node 1"
    | some node1 =>
      match node1 with
      | .obj nf =>
        match lookupField nf "inputs" with
        | none => .error "KeyError: inputs"
        | some inputsV =>
          match inputsV with
          | .obj inputs =>
              .ok (.obj (setField wf "1" (.obj (setField nf "inputs"
                    (.obj (setField inputs "image" (.str image_path)))))))
          | _ => .error "TypeError: inputs is not a dict"
      | _ => .error "TypeError: workflow node 1 is not a dict"
  | _ => .error "TypeError: workflow is not a dict"

/-- The handler's overall response: a returned value, an uncaught
exception propagating out of `handler`, or an indefinite block. -/
inductive Outcome where
  | ok (resp : Json) : Outcome
  | raised (msg : String) : Outcome
  | hangs : Outcome
deriving DecidableEq, Repr

/-- `handler` (lines 209-254), transcribed step for step: read the job
input fields, convert and clamp `image_quality`, reject a job with no
image source, resolve the workflow, acquire and persist the input
image, patch the workflow, wait for ComfyUI, run `get_images` (the
websocket connect and the `finally: ws.close()` are off-model), report
`No images generated.` on an empty result, post-process the first
image, upload it, and return its URL. -/
def handler (env : Env) (job : Json) : Outcome :=
  match job with
  | .obj jf =>
    match (lookupField jf "input").getD (.obj []) with
    | .obj fi =>
      let image_url := lookupField fi "image_url"
      let image_base64 := lookupField fi "image_base64"
      let client_workflow := lookupField fi "workflow"
      let original_size := (lookupField fi "original_size").getD (.bool true)
      match pyIntOfJson ((lookupField fi "image_quality").getD (.num 90)) with
      | none => .raised "int(): invalid image_quality"
      | some q =>
        let image_quality := clampQuality q
        if optTruthy image_url = false ∧ optTruthy image_base64 = false then
          .ok (.obj [("error", .str "Image source missing.")])
        else
          match load_workflow env client_workflow with
          | .error m => .raised m
          | .ok workflow =>
            match load_image_bytes env.fetch image_url image_base64 with
            | .error m => .raised m
            | .ok raw_bytes =>
              match save_image_bytes_as_jpeg env raw_bytes with
              | .error m => .raised m
              | .ok (image_path, input_size) =>
                match setImagePath workflow image_path with
                | .error m => .raised m
                | .ok workflow2 =>
                  match wait_for_comfyui env with
                  | .error m => .raised m
                  | .ok _ =>
                    match get_images env workflow2 with
                    | .raised m => .raised m
                    | .hangs => .hangs
                    | .ok [] => .ok (.obj [("error", .str "No images generated.")])
                    | .ok (b :: _) =>
                      match process_output_image env b input_size
                          original_size image_quality with
                      | .error m => .raised m
                      | .ok final_bytes =>
                          .ok (.obj [("image_url", .str (env.upload final_bytes))])
    | _ => .raised "AttributeError: job input has no attribute get"
  | _ => .raised "AttributeError: job has no attribute get"

/-! ## Reference-level model of the workflow objects

Python passes dicts by reference: `load_workflow` hands back the very
object the caller supplied, and line 228 mutates a dict in place.  To
reason about what the *caller's* object looks like afterwards, this
namespace gives the two lines an explicit heap semantics: cells are
Python objects, dict/list fields hold cell addresses. -/

namespace Ref

/-- A Python object on the heap; containers hold addresses. -/
inductive HVal where
  | vnull : HVal
  | vbool (b : Bool) : HVal
  | vint (n : Int) : HVal
  | vstr (s : String) : HVal
  | vlist (elems : List Nat) : HVal
  | vdict (fields : List (String × Nat)) : HVal
deriving DecidableEq, Repr

/-- A heap: cell `a` is `cells[a]`. -/
structure Heap where
  cells : List HVal
deriving DecidableEq, Repr

def Heap.get? (h : Heap) (a : Nat) : Option HVal := h.cells[a]?

def Heap.setCell (h : Heap) (a : Nat) (x : HVal) : Heap := ⟨h.cells.set a x⟩

/-- First-match lookup in a dict's field list. -/
def lookupAddr : List (String × Nat) → String → Option Nat
  | [], _ => none
  | (k, v) :: rest, key => if k = key then some v else lookupAddr rest key

/-- `d[k] = v`: overwrite an existing key in place, else append. -/
def setKey : List (String × Nat) → String → Nat → List (String × Nat)
  | [], key, v => [(key, v)]
  | (k, w) :: rest, key, v =>
      if k = key then (k, v) :: rest else (k, w) :: setKey rest key v

/-- `h[a][k]` when cell `a` is a dict holding key `k`. -/
def dictGet (h : Heap) (a : Nat) (k : String) : Option Nat :=
  match h.get? a with
  | some (.vdict fs) => lookupAddr fs k
  | _ => none

/-- Python truthiness of the object at address `a`. -/
def truthyAt (h : Heap) (a : Nat) : Bool :=
  match h.get? a with
  | some .vnull => false
  | some (.vbool b) => b
  | some (.vint n) => n ≠ 0
  | some (.vstr s) => s ≠ ""
  | some (.vlist l) => !l.isEmpty
  | some (.vdict f) => !f.isEmpty
  | none => false

/-- Allocate a fresh cell. -/
def Heap.alloc (h : Heap) (x : HVal) : Heap × Nat :=
  (⟨h.cells ++ [x]⟩, h.cells.length)

/-- The value reachable from address `a`, read back as a JSON document
(`fuel` bounds the depth; Python object graphs may be cyclic). -/
def readback (h : Heap) : Nat → Nat → Option Json
  | 0, _ => none
  | fuel + 1, a =>
    match h.get? a with
    | some .vnull => some .null
    | some (.vbool b) => some (.bool b)
    | some (.vint n) => some (.num n)
    | some (.vstr s) => some (.str s)
    | some (.vlist es) => (es.mapM (readback h fuel)).map .arr
    | some (.vdict fs) =>
        (fs.mapM fun kv => (readback h fuel kv.2).map fun j => (kv.1, j)).map .obj
    | none => none

/-- Address reached by a chain of dict indexings from `a`. -/
def pathAddr (h : Heap) (a : Nat) : List String → Option Nat
  | [] => some a
  | k :: ks =>
    match dictGet h a k with
    | some b => pathAddr h b ks
    | none => none

/-- `load_workflow` (handler.py lines 77-87) at reference level: a
truthy client workflow is returned as the same address on the unchanged
heap; the default branch parses the bundled file, allocating a fresh
object graph (allocation is off-model here: the claims concern the
client branch, and a freshly parsed default aliases nothing). -/
def load_workflow (h : Heap) (client_workflow : Option Nat) :
    Except String (Heap × Nat) :=
  match client_workflow with
  | some a =>
    if truthyAt h a then .ok (h, a)
    else .error "default branch: see FluxK.load_workflow"
  | none => .error "default branch: see FluxK.load_workflow"

/-- Line 228, `workflow["1"]["inputs"]["image"] = image_path`, at
reference level: resolve `workflow["1"]`, then `["inputs"]`, allocate
the new string, and overwrite the `"image"` slot of the `inputs` dict
cell in place.  `none` models the raised `KeyError`/`TypeError`. -/
def injectImage (h : Heap) (wAddr : Nat) (image_path : String) : Option Heap :=
  match dictGet h wAddr "1" with
  | none => none
  | some n1 =>
    match dictGet h n1 "inputs" with
    | none => none
    | some ni =>
      match h.get? ni with
      | some (.vdict fs) =>
        let fresh := h.cells.length
        let h2 : Heap := ⟨h.cells ++ [.vstr image_path]⟩
        some (h2.setCell ni (.vdict (setKey fs "image" fresh)))
      | _ => none

end Ref

/-! ## Spec-side notions (stated from the spec's words, to be compared
with the source-side functions) -/

/-- §3 Completion Event, as the spec words it: a textual frame whose
event has `type == "executing"`, `data.node == null` and
`data.prompt_id` equal to the submission identifier. -/
def specCompletionEvent (prompt_id : Json) : WsFrame → Bool
  | .text (.obj fields) =>
    (match lookupField fields "type" with
     | some t => t.pyEq (.str "executing")
     | none => false) &&
    (match lookupField fields "data" with
     | some (.obj df) =>
       (match lookupField df "node" with
        | some n => n = Json.null
        | none => false) &&
       (match lookupField df "prompt_id" with
        | some p => p.pyEq prompt_id
        | none => false)
     | _ => false)
  | _ => false

/-- §4.6 selection policy, as the spec words it: the first image
descriptor of the first node whose `images` list is non-empty, nodes in
the history document's own key order. -/
def specFirstImage : List (String × Json) → Option Json
  | [] => none
  | (_, node_output) :: rest =>
    match node_output with
    | .obj nf =>
      match lookupField nf "images" with
      | some (.arr (img :: _)) => some img
      | _ => specFirstImage rest
    | _ => specFirstImage rest

/-- A well-formed image descriptor per §3: an object with `filename`,
`subfolder` and `type` fields. -/
def wfDescriptor : Json → Bool
  | .obj imf =>
      (lookupField imf "filename").isSome &&
      (lookupField imf "subfolder").isSome &&
      (lookupField imf "type").isSome
  | _ => false

/-- A well-formed node output per §3: an object whose `images` field,
when present, is a list of well-formed descriptors. -/
def wfNodeOutput : Json → Bool
  | .obj nf =>
    match lookupField nf "images" with
    | none => true
    | some (.arr imgs) => imgs.all wfDescriptor
    | some _ => false
  | _ => false

/-- A well-formed `outputs` mapping per §3. -/
def wfOutputs (outs : List (String × Json)) : Bool :=
  outs.all fun kv => wfNodeOutput kv.2

/-- The bytes the extractor fetches for one descriptor. -/
def descriptorFetch (env : Env) (img : Json) : Option (List Nat) :=
  match img with
  | .obj imf =>
    match lookupField imf "filename", lookupField imf "subfolder",
          lookupField imf "type" with
    | some f, some sf, some ty => some (get_image env f sf ty)
    | _, _, _ => none
  | _ => none

/-! ## Concrete environments and jobs for end-to-end runs -/

/-- A happy-path environment: default workflow present, ComfyUI up, one
completion event for `"p1"`, a history with one node bearing one image. -/
def envBase : Env where
  defaultWorkflow := some (.obj [("1", .obj [("inputs", .obj [("image", .str "pl")])])])
  fetch := fun _ => some [9, 9, 9]
  decode := fun bs => some { mode := "RGB", width := 4, height := 3, content := bs.length }
  convertContent := fun img => img.content + 500
  resizeContent := fun img _ => img.content + 1000
  encodeJPEG := fun img q => [img.content, q.toNat]
  comfyUp := fun _ => true
  queueResponse := .obj [("prompt_id", .str "p1")]
  frames := [.text (.obj [("type", .str "executing"),
    ("data", .obj [("node", .null), ("prompt_id", .str "p1")])])]
  historyDoc := .obj [("p1", .obj [("outputs", .obj [("9", .obj [("images",
    .arr [.obj [("filename", .str "f.png"), ("subfolder", .str ""),
                ("type", .str "output")]])])])])]
  view := fun _ _ _ => [1, 2, 3]
  upload := fun _ => "https://store/out.jpg"

/-- A job that supplies only a valid one-byte base64 image. -/
def jobB64 : Json := .obj [("input", .obj [("image_base64", .str "QQ==")])]

/-- `envBase` with the bundled default workflow missing/unparseable. -/
def envNoDefault : Env := { envBase with defaultWorkflow := none }

/-- `envBase` with a JPEG encoder and an uploader that expose the
encoding quality in the final response URL. -/
def envQuality : Env :=
  { envBase with
    encodeJPEG := fun _ q => [q.toNat]
    upload := fun bs =>
      if bs = [100] then "encoded-at-100"
      else if bs = [0] then "encoded-at-0"
      else "encoded-other" }

/-- A job requesting `image_quality = 150`. -/
def jobQuality150 : Json :=
  .obj [("input", .obj [("image_base64", .str "QQ=="),
                        ("image_quality", .num 150)])]

/-- A job requesting `image_quality = -5`. -/
def jobQualityNeg5 : Json :=
  .obj [("input", .obj [("image_base64", .str "QQ=="),
                        ("image_quality", .num (-5))])]

/-- `envBase` with a history of three nodes in key order — an
empty-images node, a node with two images, a node with one more — and a
`view` oracle and uploader that expose which image was fetched,
post-processed and returned. -/
def envMulti : Env :=
  { envBase with
    historyDoc := .obj [("p1", .obj [("outputs", .obj
      [("3", .obj [("images", .arr [])]),
       ("7", .obj [("images", .arr
         [.obj [("filename", .str "first.png"), ("subfolder", .str ""),
                ("type", .str "output")],
          .obj [("filename", .str "second.png"), ("subfolder", .str ""),
                ("type", .str "output")]])]),
       ("9", .obj [("images", .arr
         [.obj [("filename", .str "third.png"), ("subfolder", .str ""),
                ("type", .str "output")]])])])])]
    view := fun f _ _ => if f = "first.png" then [11] else if f = "second.png" then [22] else [33]
    decode := fun bs => some { mode := "RGB", width := 4, height := 3, content := bs.headD 0 }
    encodeJPEG := fun img _ => [img.content]
    upload := fun bs => if bs = [11] then "url-of-first" else "url-of-other" }

/-- `envBase` with a history whose outputs hold one node with an empty
`images` list and one node with no `images` field at all. -/
def envEmptyOutputs : Env :=
  { envBase with
    historyDoc := .obj [("p1", .obj [("outputs", .obj
      [("3", .obj [("images", .arr [])]),
       ("5", .obj [("other", .num 1)])])])] }

namespace Ref

/-- A four-cell heap holding the caller's workflow
`{"1": {"inputs": {"image": "orig"}}}` at address 3. -/
def heap0 : Heap :=
  ⟨[.vstr "orig",
    .vdict [("image", 0)],
    .vdict [("inputs", 1)],
    .vdict [("1", 2)]]⟩

/-- `heap0` after line 228 ran against the caller's workflow object:
the new path string is allocated at cell 4 and the `inputs` dict (cell
1) is overwritten in place. -/
def heap1 : Heap :=
  ⟨[.vstr "orig",
    .vdict [("image", 4)],
    .vdict [("inputs", 1)],
    .vdict [("1", 2)],
    .vstr "/workspace/ComfyUI/input/input_image.jpg"]⟩

end Ref

/-! ## Theorems -/

/-- The receive loop breaks on a frame exactly when the frame has the
spec's completion shape. -/
theorem loopStep_brk_iff (prompt_id : Json) (f : WsFrame) :
    loopStep prompt_id f = .brk ↔ specCompletionEvent prompt_id f = true := by
  cases f with
  | binary d => simp [loopStep, specCompletionEvent]
  | textBad r => simp [loopStep, specCompletionEvent]
  | text j =>
    cases j with
    | null => simp [loopStep, specCompletionEvent]
    | bool b => simp [loopStep, specCompletionEvent]
    | num n => simp [loopStep, specCompletionEvent]
    | str s => simp [loopStep, specCompletionEvent]
    | arr l => simp [loopStep, specCompletionEvent]
    | obj fields =>
      simp only [loopStep, specCompletionEvent]
      rcases h1 : lookupField fields "type" with _ | t
      · simp
      · simp only
        by_cases h2 : Json.pyEq t (.str "executing") = true
        · simp only [h2, if_true]
          rcases h3 : lookupField fields "data" with _ | d
          · simp [h2]
          · simp only
            cases d with
            | obj df =>
              rcases h4 : lookupField df "node" with _ | node
              · simp [h4, h2]
              · by_cases h5 : node = Json.null
                · rcases h6 : lookupField df "prompt_id" with _ | p
                  · simp [h4, h5, h6, h2]
                  · by_cases h7 : Json.pyEq p prompt_id = true
                    · simp [h4, h5, h6, h7, h2]
                    · simp [h4, h5, h6, h7, h2]
                · simp [h4, h5, h2]
            | null => simp [h2]
            | bool b => simp [h2]
            | num n => simp [h2]
            | str s => simp [h2]
            | arr l => simp [h2]
        · simp [h2]

/-- A frame the loop merely consumes is not a completion frame. -/
theorem spec_false_of_cont (prompt_id : Json) (f : WsFrame)
    (h : loopStep prompt_id f = .cont) :
    specCompletionEvent prompt_id f = false := by
  by_contra hc
  rw [Bool.not_eq_false] at hc
  have := (loopStep_brk_iff prompt_id f).mpr hc
  rw [h] at this
  exact StepRes.noConfusion this

/-- On an exception-free stream, the receive loop reaches a break if
and only if some frame has the completion shape. -/
theorem waitLoop_complete_iff (prompt_id : Json) (frames : List WsFrame)
    (hne : ∀ f ∈ frames, loopStep prompt_id f ≠ .err) :
    (∃ i, waitLoop prompt_id frames = .complete i) ↔
      ∃ f ∈ frames, specCompletionEvent prompt_id f = true := by
  induction frames with
  | nil => simp [waitLoop]
  | cons f fs ih =>
    have hfs : ∀ g ∈ fs, loopStep prompt_id g ≠ .err :=
      fun g hg => hne g (List.mem_cons_of_mem f hg)
    have key := ih hfs
    rcases hstep : loopStep prompt_id f with _ | _ | _
    · -- the head frame breaks the loop
      have hspec := (loopStep_brk_iff prompt_id f).mp hstep
      simp only [waitLoop, hstep]
      constructor
      · intro _; exact ⟨f, List.mem_cons_self f fs, hspec⟩
      · intro _; exact ⟨0, rfl⟩
    · -- the head frame is consumed
      have hspec := spec_false_of_cont prompt_id f hstep
      simp only [waitLoop, hstep]
      constructor
      · rintro ⟨i, hi⟩
        rcases hw : waitLoop prompt_id fs with n | _ | _ <;> rw [hw] at hi
        · obtain ⟨g, hg, hgs⟩ := key.mp ⟨n, hw⟩
          exact ⟨g, List.mem_cons_of_mem f hg, hgs⟩
        · exact WaitOutcome.noConfusion hi
        · exact WaitOutcome.noConfusion hi
      · rintro ⟨g, hg, hgs⟩
        rcases List.mem_cons.mp hg with rfl | hgfs
        · rw [hgs] at hspec; exact Bool.noConfusion hspec
        · obtain ⟨i, hi⟩ := key.mpr ⟨g, hgfs, hgs⟩
          exact ⟨i + 1, by rw [hi]⟩
    · exact absurd hstep (hne f (List.mem_cons_self f fs))

/-- C1.  The completion-wait loop of `get_images` terminates if and
only if the stream contains a textual frame parsing to an event with
`type = "executing"`, `data.node = null` and `data.prompt_id` equal to
the submission identifier; every other frame (binary frames, other
event types, executing events with a non-null node or another
prompt_id) is consumed without terminating the wait.  On an
exception-free stream the loop breaks iff a completion-shaped frame
occurs, and on a stream of one non-matching then one matching frame it
waits past the first and stops exactly on the second. -/
theorem waitLoop_terminates_iff_completion (prompt_id : Json) :
    (∀ frames : List WsFrame, (∀ f ∈ frames, loopStep prompt_id f ≠ .err) →
      ((∃ i, waitLoop prompt_id frames = .complete i) ↔
        ∃ f ∈ frames, specCompletionEvent prompt_id f = true)) ∧
    (∀ f g : WsFrame, loopStep prompt_id f ≠ .err →
      specCompletionEvent prompt_id f = false →
      specCompletionEvent prompt_id g = true →
      waitLoop prompt_id [f, g] = .complete 1) := by
  constructor
  · exact fun frames hne => waitLoop_complete_iff prompt_id frames hne
  · intro f g hferr hfspec hgspec
    have hgbrk := (loopStep_brk_iff prompt_id g).mpr hgspec
    have hfcont : loopStep prompt_id f = .cont := by
      rcases h : loopStep prompt_id f with _ | _ | _
      · rw [(loopStep_brk_iff prompt_id f).mp h] at hfspec
        exact Bool.noConfusion hfspec
      · rfl
      · exact absurd h hferr
    simp [waitLoop, hfcont, hgbrk]

/-- Witness for C1 at a concrete stream: an executing event for another
submission (non-null handling: here a non-matching prompt_id) followed
by the completion event for `"p1"`. -/
theorem waitLoop_terminates_iff_completion_witness :
    waitLoop (.str "p1")
      [.text (.obj [("type", .str "executing"),
         ("data", .obj [("node", .str "7"), ("prompt_id", .str "p1")])]),
       .text (.obj [("type", .str "executing"),
         ("data", .obj [("node", .null), ("prompt_id", .str "p1")])])] =
      .complete 1 :=
  (waitLoop_terminates_iff_completion (.str "p1")).2 _ _
    (by decide) (by decide) (by decide)

/-- C10.  A falsy caller-supplied workflow — in particular `{}` or the
empty string — is treated exactly like an absent workflow:
`load_workflow` ignores it and resolves the bundled default instead. -/
theorem load_workflow_falsy_uses_default (env : Env) (w : Json)
    (hw : w.truthy = false) :
    load_workflow env (some w) = load_workflow env none ∧
    load_workflow env (some w) =
      (match env.defaultWorkflow with
       | some d => .ok d
       | none => .error "Failed to load default workflow.json.") := by
  unfold load_workflow
  simp [optTruthy, hw]

/-- Witness for C10: the empty object and the empty string both fall
through to the bundled default of `envBase`. -/
theorem load_workflow_falsy_uses_default_witness :
    load_workflow envBase (some (.obj [])) = load_workflow envBase none ∧
    load_workflow envBase (some (.str "")) = load_workflow envBase none :=
  ⟨(load_workflow_falsy_uses_default envBase (.obj []) (by decide)).1,
   (load_workflow_falsy_uses_default envBase (.str "") (by decide)).1⟩

/-- C4.  For every malformed base64 string (after stripping an optional
data-URI prefix before the first comma), `load_image_bytes` fails with
the input error `Invalid 'image_base64'.` — the strict validation plus
the `binascii.Error`/`ValueError` catch means no unrelated low-level
exception and no garbage bytes can escape. -/
theorem load_image_bytes_invalid_base64 (fetch : String → Option (List Nat))
    (image_url : Option Json) (s : String)
    (hurl : optTruthy image_url = false)
    (hs : s ≠ "")
    (hbad : b64decodeValidate (stripDataUri s) = none) :
    load_image_bytes fetch image_url (some (.str s)) =
      .error "Invalid 'image_base64'." := by
  unfold load_image_bytes
  rw [hurl]
  simp [optTruthy, Json.truthy, hs, hbad]

/-- Witness for C4: a string outside the base64 alphabet. -/
theorem load_image_bytes_invalid_base64_witness :
    load_image_bytes (fun _ => none) none (some (.str "ab!~cd")) =
      .error "Invalid 'image_base64'." :=
  load_image_bytes_invalid_base64 (fun _ => none) none "ab!~cd"
    (by decide) (by decide) (by decide)

/-- C3 counterexample.  With both an inline base64 string and a remote
URL supplied, `load_image_bytes` fetches the URL (here yielding
`[9, 9, 9]`) and never touches the base64 source (which would decode to
`[65]`): the URL, not the base64 string, takes precedence, and no
local-path branch exists in the function at all. -/
theorem load_image_bytes_url_first_cex :
    load_image_bytes (fun _ => some [9, 9, 9])
        (some (.str "http://x/img.png")) (some (.str "QQ==")) = .ok [9, 9, 9] ∧
    b64decodeValidate "QQ==" = some [65] ∧
    load_image_bytes (fun _ => some [9, 9, 9])
        (some (.str "http://x/img.png")) (some (.str "QQ==")) ≠ .ok [65] := by
  decide

/-- C3 as amended.  The resolution order of `load_image_bytes` is:
remote URL first, then the base64 string (there is no local-path
branch); with a truthy URL present the result does not depend on the
base64 argument at all. -/
theorem load_image_bytes_url_precedence (fetch : String → Option (List Nat))
    (u : String) (image_base64 : Option Json) (hu : u ≠ "") :
    load_image_bytes fetch (some (.str u)) image_base64 =
      load_image_bytes fetch (some (.str u)) none := by
  unfold load_image_bytes
  simp [optTruthy, Json.truthy, hu]

/-- Witness for the amended C3. -/
theorem load_image_bytes_url_precedence_witness :
    load_image_bytes (fun _ => some [1]) (some (.str "http://x"))
        (some (.str "AAAA")) =
      load_image_bytes (fun _ => some [1]) (some (.str "http://x")) none :=
  load_image_bytes_url_precedence (fun _ => some [1]) "http://x"
    (some (.str "AAAA")) (by decide)

/-- C8.  The requested `image_quality` is clamped into 0–100 before
encoding: the clamp is bounded for every integer, 150 clamps to 100 and
-5 clamps to 0, and in two end-to-end runs the JPEG encoder receives
exactly the clamped quality. -/
theorem image_quality_clamped :
    (∀ q : Int, 0 ≤ clampQuality q ∧ clampQuality q ≤ 100) ∧
    clampQuality 150 = 100 ∧ clampQuality (-5) = 0 ∧
    handler envQuality jobQuality150 =
      .ok (.obj [("image_url", .str "encoded-at-100")]) ∧
    handler envQuality jobQualityNeg5 =
      .ok (.obj [("image_url", .str "encoded-at-0")]) := by
  refine ⟨fun q => ⟨le_max_left 0 (min 100 q),
    max_le (by norm_num) (min_le_left 100 q)⟩,
    by decide, by decide, by decide, by decide⟩

/-- C5 counterexample.  With the workflow omitted and the bundled
default missing, `handler` does not return the structured response
`{"error": "Failed to load default workflow.json."}`: the
`RuntimeError` raised by `load_workflow` propagates uncaught out of
`handler`. -/
theorem handler_default_workflow_cex :
    handler envNoDefault jobB64 =
      .raised "Failed to load default workflow.json." ∧
    handler envNoDefault jobB64 ≠
      .ok (.obj [("error", .str "Failed to load default workflow.json.")]) := by
  decide

/-- C5 as amended.  When the caller omits the workflow (or supplies a
falsy one) and the bundled default is missing or unparseable, `handler`
propagates the uncaught `RuntimeError` whose message is
`Failed to load default workflow.json.` instead of returning an error
object (the serverless framework, not the handler, turns it into a
failed-job report). -/
theorem handler_default_workflow_raises (env : Env)
    (fi : List (String × Json)) (q : Int)
    (hdef : env.defaultWorkflow = none)
    (hwf : optTruthy (lookupField fi "workflow") = false)
    (hq : pyIntOfJson ((lookupField fi "image_quality").getD (.num 90)) = some q)
    (hsrc : optTruthy (lookupField fi "image_url") = true ∨
      optTruthy (lookupField fi "image_base64") = true) :
    handler env (.obj [("input", .obj fi)]) =
      .raised "Failed to load default workflow.json." := by
  have hcond : ¬(optTruthy (lookupField fi "image_url") = false ∧
      optTruthy (lookupField fi "image_base64") = false) := by
    rcases hsrc with h | h <;> simp [h]
  unfold handler
  simp only [lookupField, if_true, Option.getD_some]
  rw [hq]
  dsimp only
  rw [if_neg hcond]
  unfold load_workflow
  rw [hdef]
  simp [hwf]

/-- Witness for the amended C5. -/
theorem handler_default_workflow_raises_witness :
    handler envNoDefault (.obj [("input", .obj [("image_base64", .str "QQ==")])]) =
      .raised "Failed to load default workflow.json." :=
  handler_default_workflow_raises envNoDefault
    [("image_base64", .str "QQ==")] 90
    (by decide) (by decide) (by decide) (Or.inr (by decide))

/-- C9.  When the fetched image decodes, (1) with `original_size`
truthy the pre-encode image has exactly the recorded input dimensions;
(2) when the decoded (and mode-normalized) dimensions already match the
target, or `original_size` is falsy, no resize happens — the pre-encode
image is the decoded image itself, modulo the RGB mode conversion (the
identity on an RGB input); and (3) `process_output_image` returns
precisely the JPEG encoding of that pre-encode image. -/
theorem process_output_image_dimensions (env : Env) (raw : List Nat)
    (target : Nat × Nat) (original_size : Json) (img0 : PILImage)
    (hdec : env.decode raw = some img0) :
    (original_size.truthy = true →
      ∃ res, processedImg env raw target original_size = some res ∧
        res.width = target.1 ∧ res.height = target.2) ∧
    (((convertIfNeeded env img0).width, (convertIfNeeded env img0).height) = target ∨
        original_size.truthy = false →
      processedImg env raw target original_size = some (convertIfNeeded env img0)) ∧
    (∀ (quality : Int) (res : PILImage),
      processedImg env raw target original_size = some res →
      process_output_image env raw target original_size quality =
        .ok (env.encodeJPEG res quality)) := by
  have hexp : processedImg env raw target original_size =
      if original_size.truthy = true ∧
          ((convertIfNeeded env img0).width, (convertIfNeeded env img0).height) ≠ target
      then some { mode := (convertIfNeeded env img0).mode, width := target.1,
                  height := target.2,
                  content := env.resizeContent (convertIfNeeded env img0) target }
      else some (convertIfNeeded env img0) := by
    simp only [processedImg, hdec]
  refine ⟨?_, ?_, ?_⟩
  · intro hos
    rw [hexp]
    by_cases hsz : ((convertIfNeeded env img0).width, (convertIfNeeded env img0).height) = target
    · rw [if_neg (by simp [hsz])]
      exact ⟨convertIfNeeded env img0, rfl,
        congrArg Prod.fst hsz, congrArg Prod.snd hsz⟩
    · rw [if_pos ⟨hos, hsz⟩]
      exact ⟨_, rfl, rfl, rfl⟩
  · intro hm
    rw [hexp]
    rcases hm with hsz | hos
    · rw [if_neg (by simp [hsz])]
    · rw [if_neg (by simp [hos])]
  · intro quality res hres
    simp only [process_output_image, hres]

/-- Witness for C9: a 4×3 RGB decode resized to a 5×5 target. -/
theorem process_output_image_dimensions_witness :
    ∃ res, processedImg envBase [0] (5, 5) (.bool true) = some res ∧
      res.width = 5 ∧ res.height = 5 :=
  (process_output_image_dimensions envBase [0] (5, 5) (.bool true)
    { mode := "RGB", width := 4, height := 3, content := 1 } (by decide)).1
    (by decide)

/-- Each node's `images` list, when well-formed, is fetched in full and
in order; the head of the fetched list is the first descriptor's bytes. -/
theorem fetchEach_wf (env : Env) : ∀ imgs : List Json,
    imgs.all wfDescriptor = true →
    ∃ l, fetchEach env imgs = .ok l ∧
      l.head? = imgs.head?.bind (descriptorFetch env) ∧ (l = [] ↔ imgs = []) := by
  intro imgs
  induction imgs with
  | nil => intro _; exact ⟨[], rfl, rfl, by simp⟩
  | cons img rest ih =>
    intro h
    simp only [List.all_cons, Bool.and_eq_true] at h
    obtain ⟨l, hl, _, _⟩ := ih h.2
    cases img with
    | obj imf =>
      have hd := h.1
      simp only [wfDescriptor, Bool.and_eq_true, Option.isSome_iff_exists] at hd
      obtain ⟨⟨⟨f, hf⟩, sf, hsf⟩, ty, hty⟩ := hd
      refine ⟨get_image env f sf ty :: l, ?_, ?_, by simp⟩
      · simp only [fetchEach, hf, hsf, hty, hl]
        rfl
      · simp [descriptorFetch, hf, hsf, hty]
    | null => simp [wfDescriptor] at h
    | bool b => simp [wfDescriptor] at h
    | num n => simp [wfDescriptor] at h
    | str s => simp [wfDescriptor] at h
    | arr a => simp [wfDescriptor] at h

/-- On a well-formed outputs mapping the extraction loop succeeds and
the head of the collected list is the bytes of the spec's selection:
the first non-empty node's first image, in document key order. -/
theorem collectImages_wf (env : Env) : ∀ outs : List (String × Json),
    wfOutputs outs = true →
    ∃ ls, collectImages env outs = .ok ls ∧
      ls.head? = (specFirstImage outs).bind (descriptorFetch env) := by
  intro outs
  induction outs with
  | nil => intro _; exact ⟨[], rfl, rfl⟩
  | cons kv rest ih =>
    intro h
    obtain ⟨k, node⟩ := kv
    simp only [wfOutputs, List.all_cons, Bool.and_eq_true] at h
    have h2 : wfOutputs rest = true := by
      simpa [wfOutputs] using h.2
    obtain ⟨ls, hls, hhead⟩ := ih h2
    cases node with
    | obj nf =>
      rcases hi : lookupField nf "images" with _ | iv
      · exact ⟨ls, by simp [collectImages, hi, hls],
          by simpa [specFirstImage, hi] using hhead⟩
      · cases iv with
        | arr imgs =>
          have hwf : imgs.all wfDescriptor = true := by
            have h1 := h.1
            simp only [wfNodeOutput, hi] at h1
            exact h1
          obtain ⟨l, hl, hlh, hlne⟩ := fetchEach_wf env imgs hwf
          refine ⟨l ++ ls, by simp only [collectImages, hi, hl, hls]; rfl, ?_⟩
          cases imgs with
          | nil =>
            have hle : l = [] := hlne.mpr rfl
            subst hle
            simpa [specFirstImage, hi] using hhead
          | cons i0 irest =>
            have hl0 : l.head? = descriptorFetch env i0 := by simpa using hlh
            cases l with
            | nil =>
              have : (i0 :: irest : List Json) = [] := hlne.mp rfl
              exact absurd this (by simp)
            | cons x xs =>
              simp only [List.cons_append, List.head?_cons] at hl0 ⊢
              simp [specFirstImage, hi, hl0]
        | null =>
          have h1 := h.1; simp [wfNodeOutput, hi] at h1
        | bool b =>
          have h1 := h.1; simp [wfNodeOutput, hi] at h1
        | num n =>
          have h1 := h.1; simp [wfNodeOutput, hi] at h1
        | str s =>
          have h1 := h.1; simp [wfNodeOutput, hi] at h1
        | obj o =>
          have h1 := h.1; simp [wfNodeOutput, hi] at h1
    | null => have h1 := h.1; simp [wfNodeOutput] at h1
    | bool b => have h1 := h.1; simp [wfNodeOutput] at h1
    | num n => have h1 := h.1; simp [wfNodeOutput] at h1
    | str s => have h1 := h.1; simp [wfNodeOutput] at h1
    | arr a => have h1 := h.1; simp [wfNodeOutput] at h1

/-- C6.  For every well-formed history whose outputs hold no node with
a non-empty `images` list (the empty outputs mapping included),
`get_images` returns the empty list — no exception, no transport error
— and, end to end, the job reports exactly
`{"error": "No images generated."}` (concrete run against a history
with one empty-images node and one node with no `images` field). -/
theorem get_images_no_images (env : Env) (workflow : Json)
    (qf hf hist outs : List (String × Json)) (pid : String) (i : Nat)
    (hq : env.queueResponse = .obj qf)
    (hpid : lookupField qf "prompt_id" = some (.str pid))
    (hwl : waitLoop (.str pid) env.frames = .complete i)
    (hh : env.historyDoc = .obj hf)
    (hent : lookupField hf pid = some (.obj hist))
    (hout : lookupField hist "outputs" = some (.obj outs))
    (hwf : wfOutputs outs = true)
    (hnone : specFirstImage outs = none) :
    get_images env workflow = .ok [] ∧
    handler envEmptyOutputs jobB64 =
      .ok (.obj [("error", .str "No images generated.")]) := by
  obtain ⟨ls, hls, hhead⟩ := collectImages_wf env outs hwf
  have hle : ls = [] := by
    rw [hnone] at hhead
    simpa using hhead
  subst hle
  exact ⟨by simp [get_images, queue_prompt, get_history, hq, hpid, hwl, hh,
    hent, hout, hls], by decide⟩

/-- Witness for C6 at the concrete empty-outputs history. -/
theorem get_images_no_images_witness :
    get_images envEmptyOutputs (.obj []) = .ok [] :=
  (get_images_no_images envEmptyOutputs (.obj [])
    [("prompt_id", .str "p1")]
    [("p1", .obj [("outputs", .obj
      [("3", .obj [("images", .arr [])]),
       ("5", .obj [("other", .num 1)])])])]
    [("outputs", .obj
      [("3", .obj [("images", .arr [])]),
       ("5", .obj [("other", .num 1)])])]
    [("3", .obj [("images", .arr [])]),
     ("5", .obj [("other", .num 1)])]
    "p1" 0
    (by decide) (by decide) (by decide) (by decide) (by decide) (by decide)
    (by decide) (by decide)).1

/-- C7.  On a well-formed history with at least one image, the first
element of the extracted list — the image the handler then
post-processes and returns — is the first image of the first non-empty
node, nodes iterated in the history document's own key order; the
end-to-end run against a three-node history returns the URL of exactly
that image. -/
theorem get_images_selects_first (env : Env) (workflow : Json)
    (qf hf hist outs : List (String × Json)) (pid : String) (i : Nat)
    (img0 : Json)
    (hq : env.queueResponse = .obj qf)
    (hpid : lookupField qf "prompt_id" = some (.str pid))
    (hwl : waitLoop (.str pid) env.frames = .complete i)
    (hh : env.historyDoc = .obj hf)
    (hent : lookupField hf pid = some (.obj hist))
    (hout : lookupField hist "outputs" = some (.obj outs))
    (hwf : wfOutputs outs = true)
    (hfirst : specFirstImage outs = some img0) :
    (∃ images, get_images env workflow = .ok images ∧
      images.head? = descriptorFetch env img0) ∧
    handler envMulti jobB64 = .ok (.obj [("image_url", .str "url-of-first")]) := by
  obtain ⟨ls, hls, hhead⟩ := collectImages_wf env outs hwf
  refine ⟨⟨ls, ?_, ?_⟩, by decide⟩
  · simp [get_images, queue_prompt, get_history, hq, hpid, hwl, hh, hent,
      hout, hls]
  · rw [hfirst] at hhead
    simpa using hhead

/-- Witness for C7 at the concrete three-node history. -/
theorem get_images_selects_first_witness :
    ∃ images, get_images envMulti (.obj []) = .ok images ∧
      images.head? = descriptorFetch envMulti
        (.obj [("filename", .str "first.png"), ("subfolder", .str ""),
               ("type", .str "output")]) :=
  (get_images_selects_first envMulti (.obj [])
    [("prompt_id", .str "p1")]
    [("p1", .obj [("outputs", .obj
      [("3", .obj [("images", .arr [])]),
       ("7", .obj [("images", .arr
         [.obj [("filename", .str "first.png"), ("subfolder", .str ""),
                ("type", .str "output")],
          .obj [("filename", .str "second.png"), ("subfolder", .str ""),
                ("type", .str "output")]])]),
       ("9", .obj [("images", .arr
         [.obj [("filename", .str "third.png"), ("subfolder", .str ""),
                ("type", .str "output")]])])])])]
    [("outputs", .obj
      [("3", .obj [("images", .arr [])]),
       ("7", .obj [("images", .arr
         [.obj [("filename", .str "first.png"), ("subfolder", .str ""),
                ("type", .str "output")],
          .obj [("filename", .str "second.png"), ("subfolder", .str ""),
                ("type", .str "output")]])]),
       ("9", .obj [("images", .arr
         [.obj [("filename", .str "third.png"), ("subfolder", .str ""),
                ("type", .str "output")]])])])]
    [("3", .obj [("images", .arr [])]),
     ("7", .obj [("images", .arr
       [.obj [("filename", .str "first.png"), ("subfolder", .str ""),
              ("type", .str "output")],
        .obj [("filename", .str "second.png"), ("subfolder", .str ""),
              ("type", .str "output")]])]),
     ("9", .obj [("images", .arr
       [.obj [("filename", .str "third.png"), ("subfolder", .str ""),
              ("type", .str "output")]])])]
    "p1" 0
    (.obj [("filename", .str "first.png"), ("subfolder", .str ""),
           ("type", .str "output")])
    (by decide) (by decide) (by decide) (by decide) (by decide) (by decide)
    (by decide) (by decide)).1

namespace Ref

theorem lookupAddr_setKey_self (fs : List (String × Nat)) (k : String) (v : Nat) :
    lookupAddr (setKey fs k v) k = some v := by
  induction fs with
  | nil => simp [setKey, lookupAddr]
  | cons kv rest ih =>
    obtain ⟨k1, v1⟩ := kv
    by_cases hk : k1 = k
    · simp [setKey, lookupAddr, hk]
    · simp [setKey, lookupAddr, hk, ih]

theorem lookupAddr_setKey_ne (fs : List (String × Nat)) (k k2 : String)
    (v : Nat) (hne : k2 ≠ k) :
    lookupAddr (setKey fs k v) k2 = lookupAddr fs k2 := by
  induction fs with
  | nil => simp [setKey, lookupAddr, Ne.symm hne]
  | cons kv rest ih =>
    obtain ⟨k1, v1⟩ := kv
    by_cases hk : k1 = k
    · subst hk
      simp [setKey, lookupAddr, Ne.symm hne]
    · simp only [setKey, hk, if_false, lookupAddr]
      by_cases h2 : k1 = k2 <;> simp [h2, ih]

theorem lt_of_get?_eq_some (h : Heap) (a : Nat) (v : HVal)
    (hv : h.get? a = some v) : a < h.cells.length := by
  by_contra hc
  push_neg at hc
  rw [Heap.get?, List.getElem?_eq_none hc] at hv
  cases hv

end Ref

/-- C2 counterexample.  `load_workflow` returns the caller's workflow
object itself (same address, unchanged heap) and the image injection of
handler.py line 228 overwrites the caller's object in place: after the
pipeline's workflow phase, reading the caller's own reference back
yields the patched document, not the one the caller supplied.  No deep
copy is ever taken. -/
theorem workflow_mutation_cex :
    Ref.load_workflow Ref.heap0 (some 3) = .ok (Ref.heap0, 3) ∧
    Ref.injectImage Ref.heap0 3 "/workspace/ComfyUI/input/input_image.jpg" =
      some Ref.heap1 ∧
    Ref.readback Ref.heap0 9 3 =
      some (.obj [("1", .obj [("inputs", .obj [("image", .str "orig")])])]) ∧
    Ref.readback Ref.heap1 9 3 =
      some (.obj [("1", .obj [("inputs", .obj [("image",
        .str "/workspace/ComfyUI/input/input_image.jpg")])])]) ∧
    Ref.readback Ref.heap1 9 3 ≠ Ref.readback Ref.heap0 9 3 := by
  decide

/-- C2 as amended.  The caller-supplied workflow is not deep-copied:
for every heap, a truthy caller workflow is handed back by
`load_workflow` as the very same object on the untouched heap, and
whenever the line-228 injection succeeds, following the caller's own
reference through `["1"]["inputs"]["image"]` afterwards reaches the
freshly written image path — the caller's object has been mutated in
place. -/
theorem workflow_mutated_in_place (h h' : Ref.Heap) (a : Nat) (path : String)
    (htr : Ref.truthyAt h a = true)
    (hinj : Ref.injectImage h a path = some h') :
    Ref.load_workflow h (some a) = .ok (h, a) ∧
    (Ref.pathAddr h' a ["1", "inputs", "image"]).bind h'.get? =
      some (.vstr path) := by
  refine ⟨by simp [Ref.load_workflow, htr], ?_⟩
  unfold Ref.injectImage at hinj
  rcases hg1 : Ref.dictGet h a "1" with _ | n1 <;> simp only [hg1] at hinj
  · exact Option.noConfusion hinj
  rcases hg2 : Ref.dictGet h n1 "inputs" with _ | ni <;> simp only [hg2] at hinj
  · exact Option.noConfusion hinj
  rcases hni : h.get? ni with _ | v <;> simp only [hni] at hinj
  · exact Option.noConfusion hinj
  cases v with
  | vdict fs =>
    simp only [Option.some.injEq] at hinj
    subst hinj
    set len := h.cells.length with hlen
    set h2 : Ref.Heap := ⟨h.cells ++ [.vstr path]⟩ with hh2
    have hnilt : ni < len := Ref.lt_of_get?_eq_some h ni _ hni
    have hget2 : ∀ x, x < len → h2.get? x = h.get? x := by
      intro x hx
      simp only [Ref.Heap.get?, hh2, List.getElem?_append_left hx]
    have hsetget : ∀ x, x ≠ ni →
        (h2.setCell ni (.vdict (Ref.setKey fs "image" len))).get? x = h2.get? x := by
      intro x hx
      simp only [Ref.Heap.get?, Ref.Heap.setCell]
      exact List.getElem?_set_ne (Ne.symm hx)
    have hsetni :
        (h2.setCell ni (.vdict (Ref.setKey fs "image" len))).get? ni =
          some (.vdict (Ref.setKey fs "image" len)) := by
      simp only [Ref.Heap.get?, Ref.Heap.setCell]
      exact List.getElem?_set_eq_of_lt _
        (by simp [hh2]; omega)
    -- resolve the three dict hops on the mutated heap
    have hga : Ref.dictGet
        (h2.setCell ni (.vdict (Ref.setKey fs "image" len))) a "1" = some n1 := by
      rcases hxa : h.get? a with _ | va
      · rw [Ref.dictGet, hxa] at hg1; cases hg1
      cases va with
      | vdict fsa =>
        by_cases hani : a = ni
        · subst hani
          rw [hxa] at hni
          cases hni
          rw [Ref.dictGet, hsetni]
          dsimp only
          rw [Ref.lookupAddr_setKey_ne fs "image" "1" len (by decide)]
          rw [Ref.dictGet, hxa] at hg1
          exact hg1
        · rw [Ref.dictGet, hsetget a hani,
            hget2 a (Ref.lt_of_get?_eq_some h a _ hxa), hxa]
          rw [Ref.dictGet, hxa] at hg1
          exact hg1
      | vnull => rw [Ref.dictGet, hxa] at hg1; cases hg1
      | vbool b => rw [Ref.dictGet, hxa] at hg1; cases hg1
      | vint n => rw [Ref.dictGet, hxa] at hg1; cases hg1
      | vstr s => rw [Ref.dictGet, hxa] at hg1; cases hg1
      | vlist es => rw [Ref.dictGet, hxa] at hg1; cases hg1
    have hgb : Ref.dictGet
        (h2.setCell ni (.vdict (Ref.setKey fs "image" len))) n1 "inputs" =
          some ni := by
      rcases hxb : h.get? n1 with _ | vb
      · rw [Ref.dictGet, hxb] at hg2; cases hg2
      cases vb with
      | vdict fsb =>
        by_cases hbni : n1 = ni
        · subst hbni
          rw [hxb] at hni
          cases hni
          rw [Ref.dictGet, hsetni]
          dsimp only
          rw [Ref.lookupAddr_setKey_ne fs "image" "inputs" len (by decide)]
          rw [Ref.dictGet, hxb] at hg2
          exact hg2
        · rw [Ref.dictGet, hsetget n1 hbni,
            hget2 n1 (Ref.lt_of_get?_eq_some h n1 _ hxb), hxb]
          rw [Ref.dictGet, hxb] at hg2
          exact hg2
      | vnull => rw [Ref.dictGet, hxb] at hg2; cases hg2
      | vbool b => rw [Ref.dictGet, hxb] at hg2; cases hg2
      | vint n => rw [Ref.dictGet, hxb] at hg2; cases hg2
      | vstr s => rw [Ref.dictGet, hxb] at hg2; cases hg2
      | vlist es => rw [Ref.dictGet, hxb] at hg2; cases hg2
    have hgc : Ref.dictGet
        (h2.setCell ni (.vdict (Ref.setKey fs "image" len))) ni "image" =
          some len := by
      rw [Ref.dictGet, hsetni]
      dsimp only
      rw [Ref.lookupAddr_setKey_self]
    have hfresh :
        (h2.setCell ni (.vdict (Ref.setKey fs "image" len))).get? len =
          some (.vstr path) := by
      rw [hsetget len (by omega), Ref.Heap.get?, hh2]
      exact List.getElem?_concat_length _ _
    simp only [Ref.pathAddr, hga, hgb, hgc]
    simpa using hfresh
  | vnull => cases hinj
  | vbool b => cases hinj
  | vint n => cases hinj
  | vstr s => cases hinj
  | vlist es => cases hinj

/-- Witness for the amended C2 at the concrete four-cell heap. -/
theorem workflow_mutated_in_place_witness :
    Ref.load_workflow Ref.heap0 (some 3) = .ok (Ref.heap0, 3) ∧
    (Ref.pathAddr Ref.heap1 3 ["1", "inputs", "image"]).bind Ref.heap1.get? =
      some (.vstr "/workspace/ComfyUI/input/input_image.jpg") :=
  workflow_mutated_in_place Ref.heap0 Ref.heap1 3
    "/workspace/ComfyUI/input/input_image.jpg" (by decide) (by decide)

end FluxK
